import Mathlib

/-!
Verification development for the serverless image-processing pipeline
(`lambda_function.py`): a shallow embedding of the batch handler, the
per-record pipeline, the derived-metrics arithmetic, temporary-file
naming and URL key decoding, together with theorems settling the
specification claims.

External collaborators (S3 download/upload, DynamoDB put, PIL decoding,
the filesystem) are modelled as a per-record environment that supplies
each call outcome; the handler itself is transcribed line by line from
the source.  Arithmetic on byte sizes is exact here: the Python division
of two nonnegative integers is modelled over the rationals, and the
executable definitions compute the same values by integer division
(bridging lemmas connect the two forms).
-/

namespace ImgProc

/-- Result of `get_image_metadata`: the fields read from the decoded image
plus the byte size of the underlying file. -/
structure ImageMeta where
  width : Nat
  height : Nat
  format : String
  mode : String
  size_bytes : Nat
deriving DecidableEq, Repr

/-- Error kinds raised by the external collaborators or by the pipeline
arithmetic (`ZeroDivisionError` at the reduction-percentage computation). -/
inductive Err where
  | storageError
  | decodeError
  | saveError
  | uploadError
  | persistenceError
  | divisionByZero
  | removeError
deriving DecidableEq, Repr

/-- One notification record of the invocation batch, as read from
the `s3` entry of a record and the event fields.  The object key is kept
in its raw (possibly URL-escaped) form; `objectSize` models the `object`
map possibly lacking the `size` field. -/
structure S3Record where
  bucketName : String
  objectKeyRaw : String
  objectSize : Option Int
  eventName : String
  eventTime : String
  awsRegion : Option String
  eventVersion : Option String
deriving DecidableEq, Repr

/-- Outcomes the external world supplies for the calls one record makes:
the two fresh uuid4 values drawn, the two wall-clock timestamps read, and
success or failure of each external call.  `origMeta` and `resizedMeta`
carry the metadata read back on success. -/
structure RecordEnv where
  uuid1 : String
  uuid2 : String
  processingTime1 : String
  processingTime2 : String
  download : Except Err Unit
  origMeta : Except Err ImageMeta
  saveResized : Except Err Unit
  resizedMeta : Except Err ImageMeta
  upload : Except Err Unit
  putItem : Except Err Unit
  removeDownload : Except Err Unit
  removeUpload : Except Err Unit

/-- Item written to the DynamoDB table, field for field as in the
`put_item` call. -/
structure AuditItem where
  resourceId : String
  eventTime : String
  eventType : String
  originalBucket : String
  originalObjectKey : String
  originalSize : Int
  originalWidth : Nat
  originalHeight : Nat
  originalFormat : String
  originalMode : String
  originalFileSize : Nat
  resizedBucket : String
  resizedObjectKey : String
  resizedWidth : Nat
  resizedHeight : Nat
  resizedFormat : String
  resizedMode : String
  resizedFileSize : Nat
  processingTime : String
  reductionPercentage : Int
  dimensionReduction : String
  eventSource : String
  awsRegion : String
  eventVersion : String
deriving DecidableEq, Repr

/-- Externally observable actions of one invocation, in execution order. -/
inductive Event where
  | s3Download (bucket : String) (key : String) (path : String)
  | getMetadata (path : String)
  | resizeCall (src : String) (dst : String)
  | s3Upload (src : String) (bucket : String) (key : String)
      (origFilename : String) (origBucket : String)
      (resizedDims : String) (procTime : String)
  | computeMetrics (resizedBytes : Nat) (origBytes : Nat)
  | dynamoPut (item : AuditItem)
  | logSuccess (key : String) (origBytes : Nat) (resizedBytes : Nat)
  | removeFile (path : String)
  | warnCleanup
  | logError (key : String)
deriving DecidableEq, Repr

/-- Numeric value of a hexadecimal digit character, as accepted by the
percent-decoder of `urllib.parse.unquote`. -/
def hexDigitVal (c : Char) : Option Nat :=
  if '0' ≤ c ∧ c ≤ '9' then some (c.toNat - 48)
  else if 'a' ≤ c ∧ c ≤ 'f' then some (c.toNat - 87)
  else if 'A' ≤ c ∧ c ≤ 'F' then some (c.toNat - 55)
  else none

/-- Percent-decoding pass of `urllib.parse.unquote`: a percent sign
followed by two hexadecimal digits becomes the encoded character, an
invalid escape is kept verbatim.  Modelled character-wise, which agrees
with Python for single-byte escapes. -/
def percentDecode : List Char → List Char
  | [] => []
  | '%' :: a :: b :: rest =>
    match hexDigitVal a, hexDigitVal b with
    | some x, some y => Char.ofNat (16 * x + y) :: percentDecode rest
    | _, _ => '%' :: percentDecode (a :: b :: rest)
  | c :: rest => c :: percentDecode rest

/-- Model of `urllib.parse.unquote_plus`: first every plus sign becomes a
space, then percent escapes are decoded (so an escaped plus survives as a
literal plus, exactly as in Python). -/
def unquote_plus (s : String) : String :=
  String.mk (percentDecode (s.data.map fun c => if c = '+' then ' ' else c))

/-- Model of `os.path.basename`: the suffix after the last slash. -/
def basename (s : String) : String :=
  String.mk ((s.data.reverse.takeWhile fun c => c ≠ '/').reverse)

/-- Local name of the downloaded original,
the f-string `/tmp/\x7buuid4()\x7d_\x7bbase_name\x7d`. -/
def download_path (uuid base : String) : String :=
  "/tmp/" ++ uuid ++ "_" ++ base

/-- Local name of the produced resized file,
the f-string `/tmp/resized_\x7bbase_name\x7d` — derived from the base name only. -/
def upload_path (base : String) : String :=
  "/tmp/resized_" ++ base

/-- Destination object key, the f-string `resized-\x7bbase_name\x7d`. -/
def resized_key (base : String) : String :=
  "resized-" ++ base

/-- Python `round` to an integer on an exact rational: round half to even.
The reference formula; the executable pipeline uses `halfEvenDiv`. -/
def pyRound (x : ℚ) : ℤ :=
  if x - ⌊x⌋ < 1 / 2 then ⌊x⌋
  else if 1 / 2 < x - ⌊x⌋ then ⌊x⌋ + 1
  else if ⌊x⌋ % 2 = 0 then ⌊x⌋ else ⌊x⌋ + 1

/-- Python `round(x, 2)`: round to two decimal places, half to even. -/
def pyRound2 (x : ℚ) : ℚ :=
  (pyRound (x * 100) : ℚ) / 100

/-- Python `int()` applied to a number: truncation toward zero. -/
def pyInt (x : ℚ) : ℤ :=
  if 0 ≤ x then ⌊x⌋ else ⌈x⌉

/-- The value of the source expression
`int(round((1 - (resized / original)) * 100, 2))` on exact arithmetic,
written as the source writes it.  `reductionPercentage` computes it
(lemma `reductionPercentage_eq_formula`). -/
def reductionFormula (resizedBytes origBytes : Nat) : ℤ :=
  pyInt (pyRound2 ((1 - (resizedBytes : ℚ) / (origBytes : ℚ)) * 100))

/-- The formula of the specification: the reduction percentage rounded to
the nearest whole percent, `round((1 - resizedBytes/originalBytes) * 100)`
(Python round, half to even).  Stated from the words of the spec, to be
compared with the value the source stores. -/
def specReductionFormula (resizedBytes origBytes : Nat) : ℤ :=
  pyRound ((1 - (resizedBytes : ℚ) / (origBytes : ℚ)) * 100)

/-- Round half to even of the exact ratio `p / q`, for positive `q`, by
integer division (`/` and `%` on `ℤ` are floor division and its remainder
for a positive divisor).  Agrees with `pyRound` by `halfEvenDiv_eq`. -/
def halfEvenDiv (p : ℤ) (q : ℕ) : ℤ :=
  if 2 * (p % (q : ℤ)) < (q : ℤ) then p / (q : ℤ)
  else if (q : ℤ) < 2 * (p % (q : ℤ)) then p / (q : ℤ) + 1
  else if (p / (q : ℤ)) % 2 = 0 then p / (q : ℤ) else p / (q : ℤ) + 1

/-- Truncation toward zero of the exact ratio `k / n`, as Python `int()`
applied to that ratio.  Agrees with `pyInt` by `truncDiv_eq`. -/
def truncDiv (k : ℤ) (n : ℕ) : ℤ :=
  if 0 ≤ k then k / (n : ℤ) else -((-k) / (n : ℤ))

/-- The stored reduction percentage: the source expression
`int(round((1 - (resized / original)) * 100, 2))` computed exactly on
integers.  The inner value is `(orig - resized) * 100 / orig`; rounding it
to two decimals is rounding `(orig - resized) * 10000 / orig` half-to-even
to an integer, and the outer `int(...)` truncates the result of dividing
that by 100 toward zero.  Equality with the literal source expression is
`reductionPercentage_eq_formula`. -/
def reductionPercentage (resizedBytes origBytes : Nat) : ℤ :=
  truncDiv (halfEvenDiv (((origBytes : ℤ) - (resizedBytes : ℤ)) * 10000) origBytes) 100

/-- The reduction percentage the specification prescribes, computed
exactly on integers: `round((orig - resized) * 100 / orig)` half-to-even.
Equality with the literal spec formula is `specReductionPercentage_eq_formula`. -/
def specReductionPercentage (resizedBytes origBytes : Nat) : ℤ :=
  halfEvenDiv (((origBytes : ℤ) - (resizedBytes : ℤ)) * 100) origBytes

/-- Evaluating the `ReductionPercentage` entry of the `put_item` argument:
Python raises `ZeroDivisionError` when the original byte size is zero,
otherwise yields the truncated two-decimal rounding. -/
def computeReduction (resizedBytes origBytes : Nat) : Except Err ℤ :=
  if origBytes = 0 then .error .divisionByZero
  else .ok (reductionPercentage resizedBytes origBytes)

/-- Dimension string, the f-string `\x7bw\x7dx\x7bh\x7d`. -/
def dimStr (w h : Nat) : String :=
  toString w ++ "x" ++ toString h

/-- Round to nearest (ties upward) of `p / q`, by integer division:
equals `round ((p : Rat) / q)` for positive `q` (`roundNatDiv_eq`). -/
def roundNatDiv (p q : Nat) : Nat :=
  (2 * p + q) / (2 * q)

/-- Modelled from the spec: the resize numeric routine (PIL
`Image.thumbnail`, an external capability per §1, absent from the
repository) per §4.2 — a bounding box of half the original dimensions
(the handler passes the fractional halves, which the routine takes to the
integer box), a uniform scale factor
`min(1, boxWidth/originalWidth, boxHeight/originalHeight)` applied to
both axes, dimensions rounded to integers and clamped to a minimum of 1.
For positive `w`, `h` the scale is whichever of `boxW/w`, `boxH/h` is
smaller (both are at most a half, so the bound 1 is never the minimum);
on that axis the target is the box value exactly, on the other it is the
rounded scaled value. -/
def thumbnailDims (w h : Nat) : Nat × Nat :=
  let boxW := w / 2
  let boxH := h / 2
  if boxW * h ≤ boxH * w then
    (max 1 boxW, max 1 (roundNatDiv (h * boxW) w))
  else
    (max 1 (roundNatDiv (w * boxH) h), max 1 boxH)

/-- Model of `resize_image`: returns the pair of the original dimensions
and the resized dimensions, as captured around the thumbnail call. -/
def resize_image (origW origH : Nat) : (Nat × Nat) × (Nat × Nat) :=
  ((origW, origH), thumbnailDims origW origH)

/-- The decoded object key of a record, `unquote_plus(record[...][...])`. -/
def recKey (rec : S3Record) : String :=
  unquote_plus rec.objectKeyRaw

/-- The base name of a record, `os.path.basename(object_key)`. -/
def recBase (rec : S3Record) : String :=
  basename (recKey rec)

/-- The local name of the downloaded original for one record. -/
def recDownloadPath (rec : S3Record) (env : RecordEnv) : String :=
  download_path env.uuid1 (recBase rec)

/-- The local name of the produced resized file for one record. -/
def recUploadPath (rec : S3Record) : String :=
  upload_path (recBase rec)

/-- The destination object key for one record. -/
def recResizedKey (rec : S3Record) : String :=
  resized_key (recBase rec)

/-- The DynamoDB item one record writes, field for field from the
`put_item` call: the event context, the original and resized metadata,
and the derived metrics. -/
def auditItemOf (rec : S3Record) (env : RecordEnv) (om rm : ImageMeta) : AuditItem :=
  { resourceId := env.uuid2
    eventTime := rec.eventTime
    eventType := rec.eventName
    originalBucket := rec.bucketName
    originalObjectKey := recKey rec
    originalSize := rec.objectSize.getD (-1)
    originalWidth := om.width
    originalHeight := om.height
    originalFormat := om.format
    originalMode := om.mode
    originalFileSize := om.size_bytes
    resizedBucket := "dest-bucket-image-out"
    resizedObjectKey := recResizedKey rec
    resizedWidth := rm.width
    resizedHeight := rm.height
    resizedFormat := rm.format
    resizedMode := rm.mode
    resizedFileSize := rm.size_bytes
    processingTime := env.processingTime2
    reductionPercentage := reductionPercentage rm.size_bytes om.size_bytes
    dimensionReduction :=
      dimStr om.width om.height ++ " → " ++
        dimStr (thumbnailDims om.width om.height).1 (thumbnailDims om.width om.height).2
    eventSource := "aws:s3"
    awsRegion := rec.awsRegion.getD ""
    eventVersion := rec.eventVersion.getD "" }

/-- The inner cleanup block: `os.remove(download_path)` then
`os.remove(upload_path)` inside a `try`; the first failure skips the rest
of the block and is only logged as a warning, never re-raised. -/
def cleanupEvents (env : RecordEnv) (dl up : String) : List Event :=
  match env.removeDownload with
  | .error _ => [.removeFile dl, .warnCleanup]
  | .ok () =>
    match env.removeUpload with
    | .error _ => [.removeFile dl, .removeFile up, .warnCleanup]
    | .ok () => [.removeFile dl, .removeFile up]

/-- The body of the per-record `try` block, transcribed statement by
statement: extract the event fields, build the local names, download,
read original metadata, resize, read resized metadata, upload with
descriptive metadata, evaluate the `put_item` argument (where the
reduction percentage divides by the original byte size), write the audit
item, log success, and run the cleanup block.  The returned list is the
externally observable actions in execution order; the `Except` is the
raised exception, if any, escaping the block. -/
def processRecord (rec : S3Record) (env : RecordEnv) : List Event × Except Err AuditItem :=
  let dl := recDownloadPath rec env
  let up := recUploadPath rec
  let t0 : List Event := [.s3Download rec.bucketName (recKey rec) dl]
  match env.download with
  | .error e => (t0, .error e)
  | .ok () =>
  let t1 := t0 ++ [.getMetadata dl]
  match env.origMeta with
  | .error e => (t1, .error e)
  | .ok om =>
  let rr := resize_image om.width om.height
  let t2 := t1 ++ [.resizeCall dl up]
  match env.saveResized with
  | .error e => (t2, .error e)
  | .ok () =>
  let t3 := t2 ++ [.getMetadata up]
  match env.resizedMeta with
  | .error e => (t3, .error e)
  | .ok rm =>
  let t4 := t3 ++ [.s3Upload up "dest-bucket-image-out" (recResizedKey rec)
      (recBase rec) rec.bucketName (dimStr rr.2.1 rr.2.2) env.processingTime1]
  match env.upload with
  | .error e => (t4, .error e)
  | .ok () =>
  let t5 := t4 ++ [.computeMetrics rm.size_bytes om.size_bytes]
  match computeReduction rm.size_bytes om.size_bytes with
  | .error e => (t5, .error e)
  | .ok _ =>
  let item := auditItemOf rec env om rm
  let t6 := t5 ++ [.dynamoPut item]
  match env.putItem with
  | .error e => (t6, .error e)
  | .ok () =>
  let t7 := t6 ++ [.logSuccess (recKey rec) om.size_bytes rm.size_bytes]
  (t7 ++ cleanupEvents env dl up, .ok item)

/-- The trace one record contributes. -/
def traceOf (p : S3Record × RecordEnv) : List Event :=
  (processRecord p.1 p.2).1

/-- Whether a call outcome is a success. -/
def isOkE : Except Err α → Bool
  | .ok _ => true
  | .error _ => false

/-- The `for record in event[...]` loop: each record runs the `try`
block; on an exception the handler logs the error and re-raises it, so
the loop stops at the first failing record. -/
def runRecords : List (S3Record × RecordEnv) → List Event × Except Err Unit
  | [] => ([], .ok ())
  | p :: rest =>
    match (processRecord p.1 p.2).2 with
    | .error e => (traceOf p ++ [.logError (recKey p.1)], .error e)
    | .ok _ => (traceOf p ++ (runRecords rest).1, (runRecords rest).2)

/-- The value returned on full success. -/
structure Response where
  statusCode : Nat
  message : String
  processed_count : Nat
deriving DecidableEq, Repr

/-- The handler: run the batch; if a record raised, the exception
propagates out of the invocation, otherwise return status 200 with the
completion message and the record count. -/
def lambda_handler (batch : List (S3Record × RecordEnv)) :
    List Event × Except Err Response :=
  match (runRecords batch).2 with
  | .error e => ((runRecords batch).1, .error e)
  | .ok () =>
    ((runRecords batch).1,
      .ok ⟨200, "Image processing completed successfully", batch.length⟩)

/-- The object keys passed to the storage fetch calls of a trace. -/
def fetchKeys : List Event → List String
  | [] => []
  | .s3Download _ k _ :: rest => k :: fetchKeys rest
  | _ :: rest => fetchKeys rest

/-- Whether an event is a temporary-file deletion. -/
def isRemove : Event → Bool
  | .removeFile _ => true
  | _ => false

/-- Whether an event is the destination write or the derived-metrics
computation (used to compare their relative order). -/
def isUploadOrMetrics : Event → Bool
  | .s3Upload .. => true
  | .computeMetrics .. => true
  | _ => false

/-- Sample original metadata: a 4 by 2 image of 100 bytes. -/
def om0 : ImageMeta := ⟨4, 2, "JPEG", "RGB", 100⟩

/-- Sample resized metadata: the 2 by 1 thumbnail of `om0`, 50 bytes. -/
def rm0 : ImageMeta := ⟨2, 1, "JPEG", "RGB", 50⟩

/-- Sample metadata of a zero-byte original. -/
def omZero : ImageMeta := ⟨4, 2, "JPEG", "RGB", 0⟩

/-- An environment in which every external call succeeds. -/
def envOk : RecordEnv :=
  ⟨"u1", "id1", "t1", "t2", .ok (), .ok om0, .ok (), .ok rm0, .ok (), .ok (), .ok (), .ok ()⟩

/-- A second all-success environment with different fresh identifiers. -/
def envOk2 : RecordEnv := { envOk with uuid1 := "u2", uuid2 := "id2" }

/-- An environment in which reading the original metadata raises a decode
error (the downloaded object is not an image). -/
def envDecodeFail : RecordEnv := { envOk with origMeta := .error .decodeError }

/-- An environment in which the original decodes with a byte size of zero. -/
def envZeroSize : RecordEnv := { envOk with origMeta := .ok omZero }

/-- A sample notification record with an escaped key and a size hint. -/
def recOk : S3Record :=
  ⟨"src-bucket", "pics/a+b.jpg", some 100, "ObjectCreated:Put", "T0",
    some "eu-west-1", some "2.1"⟩

/-- A record whose key has base filename `a.jpg` under directory `x`. -/
def recA : S3Record := { recOk with objectKeyRaw := "x/a.jpg" }

/-- A record whose key has the same base filename under directory `y`. -/
def recB : S3Record := { recOk with objectKeyRaw := "y/a.jpg" }

/-- A record whose notification lacks the optional object-size field. -/
def recNoSize : S3Record := { recOk with objectSize := none }

end ImgProc
namespace ImgProc

theorem halfEvenDiv_eq (p : ℤ) (q : ℕ) (hq : 0 < q) :
    halfEvenDiv p q = pyRound ((p : ℚ) / (q : ℚ)) := by
  have hqQ : (0 : ℚ) < (q : ℚ) := by exact_mod_cast hq
  have hfl : ⌊(p : ℚ) / (q : ℚ)⌋ = p / (q : ℤ) := Rat.floor_intCast_div_natCast p q
  have hed : (q : ℤ) * (p / (q : ℤ)) + p % (q : ℤ) = p := Int.ediv_add_emod p (q : ℤ)
  have hfrac : (p : ℚ) / (q : ℚ) - (⌊(p : ℚ) / (q : ℚ)⌋ : ℚ) =
      ((p % (q : ℤ) : ℤ) : ℚ) / (q : ℚ) := by
    rw [hfl]
    have hmQ : ((p % (q : ℤ) : ℤ) : ℚ) = (p : ℚ) - (q : ℚ) * ((p / (q : ℤ) : ℤ) : ℚ) := by
      have hc := congrArg (fun z : ℤ => (z : ℚ)) hed
      push_cast at hc
      linarith
    rw [hmQ]
    field_simp
  have h1 : ((p : ℚ) / (q : ℚ) - (⌊(p : ℚ) / (q : ℚ)⌋ : ℚ) < 1 / 2) ↔
      2 * (p % (q : ℤ)) < (q : ℤ) := by
    rw [hfrac, div_lt_iff₀ hqQ]
    constructor
    · intro h
      have hc : ((2 * (p % (q : ℤ)) : ℤ) : ℚ) < ((q : ℤ) : ℚ) := by push_cast; linarith
      exact_mod_cast hc
    · intro h
      have hc : ((2 * (p % (q : ℤ)) : ℤ) : ℚ) < ((q : ℤ) : ℚ) := by exact_mod_cast h
      push_cast at hc
      linarith
  have h2 : (1 / 2 < (p : ℚ) / (q : ℚ) - (⌊(p : ℚ) / (q : ℚ)⌋ : ℚ)) ↔
      (q : ℤ) < 2 * (p % (q : ℤ)) := by
    rw [hfrac, lt_div_iff₀ hqQ]
    constructor
    · intro h
      have hc : (((q : ℤ) : ℚ)) < ((2 * (p % (q : ℤ)) : ℤ) : ℚ) := by push_cast; linarith
      exact_mod_cast hc
    · intro h
      have hc : (((q : ℤ) : ℚ)) < ((2 * (p % (q : ℤ)) : ℤ) : ℚ) := by exact_mod_cast h
      push_cast at hc
      linarith
  unfold halfEvenDiv pyRound
  simp only [h1, h2]
  rw [hfl]

theorem truncDiv_eq (k : ℤ) (n : ℕ) (hn : 0 < n) :
    truncDiv k n = pyInt ((k : ℚ) / (n : ℚ)) := by
  have hnQ : (0 : ℚ) < (n : ℚ) := by exact_mod_cast hn
  unfold truncDiv pyInt
  by_cases hk : 0 ≤ k
  · rw [if_pos hk, if_pos (by positivity : (0 : ℚ) ≤ (k : ℚ) / (n : ℚ))]
    exact (Rat.floor_intCast_div_natCast k n).symm
  · rw [if_neg hk, if_neg]
    · have hcf : ⌈(k : ℚ) / (n : ℚ)⌉ = -⌊-((k : ℚ) / (n : ℚ))⌋ := by
        rw [Int.floor_neg]
        ring
      rw [hcf]
      have hneg : -((k : ℚ) / (n : ℚ)) = ((-k : ℤ) : ℚ) / (n : ℚ) := by push_cast; ring
      rw [hneg, Rat.floor_intCast_div_natCast]
    · push_neg at hk ⊢
      have hkQ : ((k : ℤ) : ℚ) < 0 := by exact_mod_cast hk
      exact div_neg_of_neg_of_pos hkQ hnQ

theorem reductionPercentage_eq_formula (r o : ℕ) (ho : 0 < o) :
    reductionPercentage r o = reductionFormula r o := by
  have hoQ : ((o : ℚ)) ≠ 0 := by positivity
  unfold reductionPercentage reductionFormula pyRound2
  have harg : (1 - (r : ℚ) / (o : ℚ)) * 100 * 100 =
      ((((o : ℤ) - (r : ℤ)) * 10000 : ℤ) : ℚ) / (o : ℚ) := by
    field_simp
    ring
  rw [halfEvenDiv_eq _ _ ho, harg]
  rw [truncDiv_eq _ 100 (by norm_num)]
  norm_num

theorem specReductionPercentage_eq_formula (r o : ℕ) (ho : 0 < o) :
    specReductionPercentage r o = specReductionFormula r o := by
  unfold specReductionPercentage specReductionFormula
  have hoQ : ((o : ℚ)) ≠ 0 := by positivity
  have harg : (1 - (r : ℚ) / (o : ℚ)) * 100 =
      ((((o : ℤ) - (r : ℤ)) * 100 : ℤ) : ℚ) / (o : ℚ) := by
    field_simp
  rw [halfEvenDiv_eq _ _ ho, harg]

theorem roundNatDiv_eq (p q : ℕ) (hq : 0 < q) :
    (roundNatDiv p q : ℤ) = round ((p : ℚ) / (q : ℚ)) := by
  have hqQ : (0 : ℚ) < (q : ℚ) := by exact_mod_cast hq
  rw [round_eq]
  have harg : (p : ℚ) / (q : ℚ) + 1 / 2 = ((2 * p + q : ℕ) : ℚ) / ((2 * q : ℕ) : ℚ) := by
    push_cast
    field_simp
    ring
  rw [harg, Rat.floor_natCast_div_natCast]
  unfold roundNatDiv
  push_cast
  ring

theorem halfEvenDiv_bounds (p : ℤ) (q : ℕ) (hq : 0 < q) :
    -(q : ℤ) ≤ 2 * (q : ℤ) * halfEvenDiv p q - 2 * p ∧
    2 * (q : ℤ) * halfEvenDiv p q - 2 * p ≤ (q : ℤ) := by
  have hqZ : (0 : ℤ) < (q : ℤ) := by exact_mod_cast hq
  have hed : (q : ℤ) * (p / (q : ℤ)) + p % (q : ℤ) = p := Int.ediv_add_emod p (q : ℤ)
  have hm0 : 0 ≤ p % (q : ℤ) := Int.emod_nonneg p (by omega)
  have hmq : p % (q : ℤ) < (q : ℤ) := Int.emod_lt_of_pos p hqZ
  unfold halfEvenDiv
  split_ifs with c1 c2 c3 <;> constructor <;> nlinarith [hed, hm0, hmq]

theorem truncDiv_bounds (k : ℤ) :
    100 * truncDiv k 100 - 99 ≤ k ∧ k ≤ 100 * truncDiv k 100 + 99 := by
  have h1 : (100 : ℤ) * (k / (100 : ℤ)) + k % (100 : ℤ) = k := Int.ediv_add_emod k 100
  have h2 : 0 ≤ k % (100 : ℤ) := Int.emod_nonneg k (by norm_num)
  have h3 : k % (100 : ℤ) < (100 : ℤ) := Int.emod_lt_of_pos k (by norm_num)
  have h4 : (100 : ℤ) * ((-k) / (100 : ℤ)) + (-k) % (100 : ℤ) = -k := Int.ediv_add_emod (-k) 100
  have h5 : 0 ≤ (-k) % (100 : ℤ) := Int.emod_nonneg (-k) (by norm_num)
  have h6 : (-k) % (100 : ℤ) < (100 : ℤ) := Int.emod_lt_of_pos (-k) (by norm_num)
  unfold truncDiv
  split_ifs with hk <;> constructor <;> push_cast <;> linarith

end ImgProc
namespace ImgProc

theorem roundNatDiv_le (p q c : ℕ) (hq : 0 < q) (hpc : p ≤ c * q) :
    roundNatDiv p q ≤ c := by
  unfold roundNatDiv
  have h2q : 0 < 2 * q := by omega
  apply Nat.lt_succ_iff.mp
  rw [Nat.div_lt_iff_lt_mul h2q]
  nlinarith [hpc, hq]

theorem max_one_round_close (p q : ℕ) (hq : 0 < q) :
    |((max 1 (roundNatDiv p q) : ℕ) : ℚ) - (p : ℚ) / (q : ℚ)| ≤ 1 := by
  have hr := roundNatDiv_eq p q hq
  have habs := abs_sub_round ((p : ℚ) / (q : ℚ))
  have hy0 : (0 : ℚ) ≤ (p : ℚ) / (q : ℚ) := by positivity
  rw [abs_le] at habs ⊢
  rcases Nat.eq_zero_or_pos (roundNatDiv p q) with h0 | h1
  · have hz : round ((p : ℚ) / (q : ℚ)) = 0 := by rw [← hr, h0]; rfl
    rw [hz] at habs
    push_cast at habs
    rw [h0]
    norm_num
    constructor <;> linarith [habs.1, habs.2]
  · have hmax : max 1 (roundNatDiv p q) = roundNatDiv p q := max_eq_right h1
    rw [hmax]
    have hcast : ((roundNatDiv p q : ℕ) : ℚ) = ((round ((p : ℚ) / (q : ℚ)) : ℤ) : ℚ) := by
      exact_mod_cast hr
    rw [hcast]
    constructor <;> linarith [habs.1, habs.2]

/-- C5: the target dimensions fit within the half-size box (clamped below
by one), never collapse to zero, and arise from one uniform scale factor
applied to both axes with at most one pixel of rounding on each. -/
theorem resize_dims_spec (w h : ℕ) (hw : 0 < w) (hh : 0 < h) :
    (thumbnailDims w h).1 ≤ max 1 (w / 2) ∧ (thumbnailDims w h).2 ≤ max 1 (h / 2) ∧
    1 ≤ (thumbnailDims w h).1 ∧ 1 ≤ (thumbnailDims w h).2 ∧
    ∃ s : ℚ, 0 ≤ s ∧ s ≤ 1 ∧
      |((thumbnailDims w h).1 : ℚ) - (w : ℚ) * s| ≤ 1 ∧
      |((thumbnailDims w h).2 : ℚ) - (h : ℚ) * s| ≤ 1 := by
  have hwQ : (0 : ℚ) < (w : ℚ) := by exact_mod_cast hw
  have hhQ : (0 : ℚ) < (h : ℚ) := by exact_mod_cast hh
  simp only [thumbnailDims]
  split_ifs with hb
  · refine ⟨le_refl _, ?_, le_max_left 1 _, le_max_left 1 _, ?_⟩
    · exact max_le_max (le_refl 1)
        (roundNatDiv_le _ _ _ hw (by rw [Nat.mul_comm]; exact hb))
    · refine ⟨((w / 2 : ℕ) : ℚ) / (w : ℚ), by positivity, ?_, ?_, ?_⟩
      · rw [div_le_one hwQ]
        exact_mod_cast Nat.div_le_self w 2
      · have hws : (w : ℚ) * (((w / 2 : ℕ) : ℚ) / (w : ℚ)) = ((w / 2 : ℕ) : ℚ) := by
          field_simp
        rw [hws]
        rcases Nat.eq_zero_or_pos (w / 2) with h0 | h1
        · rw [h0]
          norm_num
        · rw [max_eq_right h1]
          simp
      · have hhs : (h : ℚ) * (((w / 2 : ℕ) : ℚ) / (w : ℚ)) =
            ((h * (w / 2) : ℕ) : ℚ) / (w : ℚ) := by
          push_cast
          ring
        rw [hhs]
        exact max_one_round_close _ _ hw
  · push_neg at hb
    refine ⟨?_, le_refl _, le_max_left 1 _, le_max_left 1 _, ?_⟩
    · exact max_le_max (le_refl 1)
        (roundNatDiv_le _ _ _ hh (by rw [Nat.mul_comm]; exact le_of_lt hb))
    · refine ⟨((h / 2 : ℕ) : ℚ) / (h : ℚ), by positivity, ?_, ?_, ?_⟩
      · rw [div_le_one hhQ]
        exact_mod_cast Nat.div_le_self h 2
      · have hws : (w : ℚ) * (((h / 2 : ℕ) : ℚ) / (h : ℚ)) =
            ((w * (h / 2) : ℕ) : ℚ) / (h : ℚ) := by
          push_cast
          ring
        rw [hws]
        exact max_one_round_close _ _ hh
      · have hhs : (h : ℚ) * (((h / 2 : ℕ) : ℚ) / (h : ℚ)) = ((h / 2 : ℕ) : ℚ) := by
          field_simp
        rw [hhs]
        rcases Nat.eq_zero_or_pos (h / 2) with h0 | h1
        · rw [h0]
          norm_num
        · rw [max_eq_right h1]
          simp

end ImgProc
namespace ImgProc

theorem processRecord_success (rec : S3Record) (env : RecordEnv) (om rm : ImageMeta)
    (h1 : env.download = .ok ()) (h2 : env.origMeta = .ok om)
    (h3 : env.saveResized = .ok ()) (h4 : env.resizedMeta = .ok rm)
    (h5 : env.upload = .ok ()) (h6 : om.size_bytes ≠ 0)
    (h7 : env.putItem = .ok ()) :
    processRecord rec env =
      ([.s3Download rec.bucketName (recKey rec) (recDownloadPath rec env),
        .getMetadata (recDownloadPath rec env),
        .resizeCall (recDownloadPath rec env) (recUploadPath rec),
        .getMetadata (recUploadPath rec),
        .s3Upload (recUploadPath rec) "dest-bucket-image-out" (recResizedKey rec)
          (recBase rec) rec.bucketName
          (dimStr (thumbnailDims om.width om.height).1 (thumbnailDims om.width om.height).2)
          env.processingTime1,
        .computeMetrics rm.size_bytes om.size_bytes,
        .dynamoPut (auditItemOf rec env om rm),
        .logSuccess (recKey rec) om.size_bytes rm.size_bytes] ++
        cleanupEvents env (recDownloadPath rec env) (recUploadPath rec),
       .ok (auditItemOf rec env om rm)) := by
  unfold processRecord
  rw [h1, h2, h3, h4, h5, h7]
  simp [computeReduction, h6, resize_image]

theorem runRecords_all_ok (batch : List (S3Record × RecordEnv))
    (h : ∀ p ∈ batch, isOkE (processRecord p.1 p.2).2 = true) :
    runRecords batch = ((batch.map traceOf).flatten, .ok ()) := by
  induction batch with
  | nil => rfl
  | cons p rest ih =>
    have hp := h p (List.mem_cons_self p rest)
    have hrest := ih (fun q hq => h q (List.mem_cons_of_mem p hq))
    obtain ⟨a, ha⟩ : ∃ a, (processRecord p.1 p.2).2 = .ok a := by
      cases hE : (processRecord p.1 p.2).2 with
      | error e => rw [hE] at hp; simp [isOkE] at hp
      | ok a => exact ⟨a, rfl⟩
    simp [runRecords, ha, hrest, traceOf]

theorem runRecords_halt (pre : List (S3Record × RecordEnv)) (bad : S3Record × RecordEnv)
    (post : List (S3Record × RecordEnv)) (e : Err)
    (hpre : ∀ p ∈ pre, isOkE (processRecord p.1 p.2).2 = true)
    (hbad : (processRecord bad.1 bad.2).2 = .error e) :
    runRecords (pre ++ bad :: post) =
      ((pre.map traceOf).flatten ++ (traceOf bad ++ [.logError (recKey bad.1)]), .error e) := by
  induction pre with
  | nil => simp [runRecords, hbad]
  | cons p rest ih =>
    have hp := hpre p (List.mem_cons_self p rest)
    have hrest := ih (fun q hq => hpre q (List.mem_cons_of_mem p hq))
    obtain ⟨a, ha⟩ : ∃ a, (processRecord p.1 p.2).2 = .ok a := by
      cases hE : (processRecord p.1 p.2).2 with
      | error er => rw [hE] at hp; simp [isOkE] at hp
      | ok a => exact ⟨a, rfl⟩
    simp [runRecords, ha, hrest, traceOf, List.append_assoc]

theorem fetchKeys_append (l1 l2 : List Event) :
    fetchKeys (l1 ++ l2) = fetchKeys l1 ++ fetchKeys l2 := by
  induction l1 with
  | nil => rfl
  | cons ev rest ih => cases ev <;> simp [fetchKeys, ih]

end ImgProc
namespace ImgProc

theorem fetchKeys_cleanup (env : RecordEnv) (dl up : String) :
    fetchKeys (cleanupEvents env dl up) = [] := by
  unfold cleanupEvents
  split
  · rfl
  · split <;> rfl

theorem dynamoPut_not_in_cleanup (env : RecordEnv) (dl up : String) (item : AuditItem) :
    Event.dynamoPut item ∉ cleanupEvents env dl up := by
  unfold cleanupEvents
  split
  · simp
  · split <;> simp

/-- C1 counterexample: a record whose original fails to decode exits with
a terminal failure after the download, yet no deletion is attempted: the
trace of the failing record contains no remove event at all, so the
downloaded artifact is not released on this exit path. -/
theorem cleanup_skipped_on_failure_cx :
    envDecodeFail.download = .ok () ∧
    (processRecord recA envDecodeFail).2 = .error .decodeError ∧
    (processRecord recA envDecodeFail).1.filter isRemove = [] :=
  ⟨rfl, rfl, by decide⟩

/-- C1 (amended): the temporary artifacts are deleted on the success path
only — after a successful audit write both deletions are attempted before
the record returns, and a deletion failure is logged as a warning and
never escalated (the record still succeeds); on failure exit paths no
deletion is performed (see the counterexample). -/
theorem cleanup_success_only (rec : S3Record) (env : RecordEnv) (om rm : ImageMeta)
    (h1 : env.download = .ok ()) (h2 : env.origMeta = .ok om)
    (h3 : env.saveResized = .ok ()) (h4 : env.resizedMeta = .ok rm)
    (h5 : env.upload = .ok ()) (h6 : om.size_bytes ≠ 0)
    (h7 : env.putItem = .ok ()) :
    isOkE (processRecord rec env).2 = true ∧
    (env.removeDownload = .ok () → env.removeUpload = .ok () →
      Event.removeFile (recDownloadPath rec env) ∈ (processRecord rec env).1 ∧
      Event.removeFile (recUploadPath rec) ∈ (processRecord rec env).1) ∧
    (∀ e, env.removeDownload = .error e →
      Event.warnCleanup ∈ (processRecord rec env).1) := by
  have hs := processRecord_success rec env om rm h1 h2 h3 h4 h5 h6 h7
  refine ⟨by rw [hs]; rfl, ?_, ?_⟩
  · intro hrd hru
    rw [hs]
    constructor <;> simp [cleanupEvents, hrd, hru]
  · intro e he
    rw [hs]
    simp [cleanupEvents, he]

/-- C1 witness: the amended statement at an all-success record. -/
theorem cleanup_success_only_witness :
    isOkE (processRecord recOk envOk).2 = true ∧
    (envOk.removeDownload = .ok () → envOk.removeUpload = .ok () →
      Event.removeFile (recDownloadPath recOk envOk) ∈ (processRecord recOk envOk).1 ∧
      Event.removeFile (recUploadPath recOk) ∈ (processRecord recOk envOk).1) ∧
    (∀ e, envOk.removeDownload = .error e →
      Event.warnCleanup ∈ (processRecord recOk envOk).1) :=
  cleanup_success_only recOk envOk om0 rm0 rfl rfl rfl rfl rfl (by decide) rfl

/-- C2 counterexample: for a 3-byte original resized to 1 byte the stored
value is 66 while the nearest whole percent is 67 — the source truncates
the two-decimal rounding toward zero instead of rounding to nearest.  The
integer computations and the literal formulas evaluate identically. -/
theorem reduction_not_nearest_cx :
    reductionPercentage 1 3 = 66 ∧ specReductionPercentage 1 3 = 67 ∧
    reductionFormula 1 3 = 66 ∧ specReductionFormula 1 3 = 67 :=
  ⟨by decide, by decide,
   by rw [← reductionPercentage_eq_formula 1 3 (by norm_num)]; decide,
   by rw [← specReductionPercentage_eq_formula 1 3 (by norm_num)]; decide⟩

/-- C2 (amended): for a positive original byte size the stored
`ReductionPercentage` is an integer at most 100 — the truncation toward
zero of the two-decimal rounding of `(1 - resized/original) * 100` — and
it differs from the round-to-nearest-whole-percent value of the
specification by at most one. -/
theorem reduction_stored_amended (r o : ℕ) (ho : 0 < o) :
    reductionPercentage r o ≤ 100 ∧
    |reductionPercentage r o - specReductionPercentage r o| ≤ 1 := by
  have hoZ : (0 : ℤ) < (o : ℤ) := by exact_mod_cast ho
  have hr0 : (0 : ℤ) ≤ (r : ℤ) := Int.natCast_nonneg r
  obtain ⟨hK1, hK2⟩ := halfEvenDiv_bounds (((o : ℤ) - (r : ℤ)) * 10000) o ho
  obtain ⟨hS1, hS2⟩ := halfEvenDiv_bounds (((o : ℤ) - (r : ℤ)) * 100) o ho
  obtain ⟨hT1, hT2⟩ := truncDiv_bounds (halfEvenDiv (((o : ℤ) - (r : ℤ)) * 10000) o)
  set A : ℤ := (o : ℤ) - (r : ℤ) with hAdef
  set K : ℤ := halfEvenDiv (A * 10000) o with hKdef
  set S : ℤ := halfEvenDiv (A * 100) o with hSdef
  set C : ℤ := truncDiv K 100 with hCdef
  have hcode : reductionPercentage r o = C := rfl
  have hspec : specReductionPercentage r o = S := rfl
  have e1 : 2 * (o : ℤ) * (100 * C - 99) ≤ 2 * (o : ℤ) * K :=
    mul_le_mul_of_nonneg_left hT1 (by positivity)
  have e2 : 2 * (o : ℤ) * K ≤ 2 * (o : ℤ) * (100 * C + 99) :=
    mul_le_mul_of_nonneg_left hT2 (by positivity)
  constructor
  · rw [hcode]
    have hA_le : A ≤ (o : ℤ) := by omega
    have hAs : 20000 * A ≤ 20000 * (o : ℤ) := by linarith
    have h2 : 200 * (o : ℤ) * C < 200 * (o : ℤ) * 101 := by nlinarith [e1, hK2]
    have h3 : C < 101 := lt_of_mul_lt_mul_left h2 (by positivity)
    omega
  · rw [hcode, hspec, abs_le]
    have hu : 200 * (o : ℤ) * (C - S) ≤ 299 * (o : ℤ) := by nlinarith [e2, hK2, hS1]
    have hl : -(299 * (o : ℤ)) ≤ 200 * (o : ℤ) * (C - S) := by nlinarith [e1, hK1, hS2]
    constructor
    · by_contra hcon
      push_neg at hcon
      have hstep : 200 * (o : ℤ) * (C - S) ≤ 200 * (o : ℤ) * (-2) :=
        mul_le_mul_of_nonneg_left (by omega) (by positivity)
      linarith
    · by_contra hcon
      push_neg at hcon
      have hstep : 200 * (o : ℤ) * 2 ≤ 200 * (o : ℤ) * (C - S) :=
        mul_le_mul_of_nonneg_left (by omega) (by positivity)
      linarith

/-- C2 witness: the amended statement at the counterexample sizes. -/
theorem reduction_stored_amended_witness :
    reductionPercentage 1 3 ≤ 100 ∧
    |reductionPercentage 1 3 - specReductionPercentage 1 3| ≤ 1 :=
  reduction_stored_amended 1 3 (by norm_num)

/-- C3: records are processed in input order; on the first record whose
processing raises, the handler logs and re-raises, so the error is the
invocation result, no summary is returned, and no event of any later
record occurs (the result does not depend on the records after the
failing one). -/
theorem batch_halts_on_first_failure (pre post : List (S3Record × RecordEnv))
    (bad : S3Record × RecordEnv) (e : Err)
    (hpre : ∀ p ∈ pre, isOkE (processRecord p.1 p.2).2 = true)
    (hbad : (processRecord bad.1 bad.2).2 = .error e) :
    lambda_handler (pre ++ bad :: post) =
      ((pre.map traceOf).flatten ++ (traceOf bad ++ [.logError (recKey bad.1)]),
        .error e) := by
  have hr := runRecords_halt pre bad post e hpre hbad
  unfold lambda_handler
  rw [hr]

/-- C3 witness: a batch of three records whose second is undecodable
halts after the second record; the third record is never fetched and the
invocation yields the decode error. -/
theorem batch_halts_witness :
    (lambda_handler [(recOk, envOk), (recA, envDecodeFail), (recB, envOk2)]).2 =
      .error .decodeError ∧
    Event.s3Download "src-bucket" "y/a.jpg" (recDownloadPath recB envOk2) ∉
      (lambda_handler [(recOk, envOk), (recA, envDecodeFail), (recB, envOk2)]).1 :=
  ⟨congrArg Prod.snd
    (batch_halts_on_first_failure [(recOk, envOk)] [(recB, envOk2)]
      (recA, envDecodeFail) .decodeError (by decide) rfl),
   by decide⟩

/-- C4 counterexample: two records of one batch with distinct keys but the
same base filename `a.jpg` receive distinct download names (fresh
identifiers) but the very same resized-artifact name
`/tmp/resized_a.jpg` — the local name of the produced resized file is
derived from the object key, not from a fresh identifier, and collides. -/
theorem tmp_name_collision_cx :
    recA.objectKeyRaw ≠ recB.objectKeyRaw ∧
    recDownloadPath recA envOk ≠ recDownloadPath recB envOk2 ∧
    recUploadPath recA = recUploadPath recB := by
  decide

/-- C4 (amended): the download artifact names of two records with the same
base filename never collide (distinct fresh identifiers give distinct
names), but the resized artifact name depends only on the base filename,
so it is the same string exactly when the base filenames agree; under the
sequential batch the records still complete independently. -/
theorem tmp_names_amended (u1 u2 b b1 b2 : String) (hne : u1 ≠ u2) :
    download_path u1 b ≠ download_path u2 b ∧
    ((upload_path b1 = upload_path b2 ↔ b1 = b2) ∧
     ∀ batch : List (S3Record × RecordEnv),
       (∀ p ∈ batch, isOkE (processRecord p.1 p.2).2 = true) →
       isOkE (runRecords batch).2 = true) := by
  refine ⟨?_, ?_, fun batch hb => by rw [runRecords_all_ok batch hb]; rfl⟩
  · intro hEq
    apply hne
    have hd := congrArg String.data hEq
    unfold download_path at hd
    simp only [String.data_append, List.append_assoc] at hd
    have h1 := List.append_cancel_left hd
    rw [← List.append_assoc, ← List.append_assoc] at h1
    have h2 := List.append_cancel_right h1
    have h3 := List.append_cancel_right h2
    cases u1
    cases u2
    simp_all
  · constructor
    · intro hEq
      have hd := congrArg String.data hEq
      unfold upload_path at hd
      simp only [String.data_append] at hd
      have h1 := List.append_cancel_left hd
      cases b1
      cases b2
      simp_all
    · intro hEq
      rw [hEq]

/-- C4 witness: the amended statement at the colliding base filename. -/
theorem tmp_names_amended_witness :
    download_path "u1" "a.jpg" ≠ download_path "u2" "a.jpg" ∧
    ((upload_path "a.jpg" = upload_path "a.jpg" ↔ ("a.jpg" : String) = "a.jpg") ∧
     ∀ batch : List (S3Record × RecordEnv),
       (∀ p ∈ batch, isOkE (processRecord p.1 p.2).2 = true) →
       isOkE (runRecords batch).2 = true) :=
  tmp_names_amended "u1" "u2" "a.jpg" "a.jpg" "a.jpg" (by decide)

/-- C5 witness: the dimension bounds at a 3 by 5 original. -/
theorem resize_dims_spec_witness :
    (0 < 3 ∧ 0 < 5) ∧
    ((thumbnailDims 3 5).1 ≤ max 1 (3 / 2) ∧ (thumbnailDims 3 5).2 ≤ max 1 (5 / 2) ∧
     1 ≤ (thumbnailDims 3 5).1 ∧ 1 ≤ (thumbnailDims 3 5).2 ∧
     ∃ s : ℚ, 0 ≤ s ∧ s ≤ 1 ∧
       |((thumbnailDims 3 5).1 : ℚ) - (3 : ℚ) * s| ≤ 1 ∧
       |((thumbnailDims 3 5).2 : ℚ) - (5 : ℚ) * s| ≤ 1) :=
  ⟨⟨by decide, by decide⟩, resize_dims_spec 3 5 (by decide) (by decide)⟩

/-- C6 counterexample: on a concrete successful record the destination
write strictly precedes the derived-metrics computation: restricted to
those two kinds of events the trace is upload first, metrics second, so
step 5 does not happen before step 6. -/
theorem metrics_after_upload_cx :
    (processRecord recOk envOk).1.filter isUploadOrMetrics =
      [.s3Upload "/tmp/resized_a b.jpg" "dest-bucket-image-out" "resized-a b.jpg"
        "a b.jpg" "src-bucket" "2x1" "t1",
       .computeMetrics 50 100] := by
  decide

/-- C6 (amended): on the success path the observable steps occur in the
fixed order fetch, original metadata, resize, resized metadata,
destination write, derived-metrics computation, audit write, success log,
cleanup — so the derived metrics are computed after the resized artifact
is written to the destination (while the audit item is constructed), and
the audit write sees exactly the stored derived metrics. -/
theorem pipeline_order_amended (rec : S3Record) (env : RecordEnv) (om rm : ImageMeta)
    (h1 : env.download = .ok ()) (h2 : env.origMeta = .ok om)
    (h3 : env.saveResized = .ok ()) (h4 : env.resizedMeta = .ok rm)
    (h5 : env.upload = .ok ()) (h6 : om.size_bytes ≠ 0)
    (h7 : env.putItem = .ok ()) :
    (processRecord rec env).1 =
      [.s3Download rec.bucketName (recKey rec) (recDownloadPath rec env),
       .getMetadata (recDownloadPath rec env),
       .resizeCall (recDownloadPath rec env) (recUploadPath rec),
       .getMetadata (recUploadPath rec),
       .s3Upload (recUploadPath rec) "dest-bucket-image-out" (recResizedKey rec)
         (recBase rec) rec.bucketName
         (dimStr (thumbnailDims om.width om.height).1 (thumbnailDims om.width om.height).2)
         env.processingTime1,
       .computeMetrics rm.size_bytes om.size_bytes,
       .dynamoPut (auditItemOf rec env om rm),
       .logSuccess (recKey rec) om.size_bytes rm.size_bytes] ++
      cleanupEvents env (recDownloadPath rec env) (recUploadPath rec) ∧
    (auditItemOf rec env om rm).reductionPercentage =
      reductionPercentage rm.size_bytes om.size_bytes :=
  ⟨by rw [processRecord_success rec env om rm h1 h2 h3 h4 h5 h6 h7], rfl⟩

/-- C6 witness: the amended trace at a concrete successful record. -/
theorem pipeline_order_amended_witness :
    (processRecord recOk envOk).1 =
      [.s3Download recOk.bucketName (recKey recOk) (recDownloadPath recOk envOk),
       .getMetadata (recDownloadPath recOk envOk),
       .resizeCall (recDownloadPath recOk envOk) (recUploadPath recOk),
       .getMetadata (recUploadPath recOk),
       .s3Upload (recUploadPath recOk) "dest-bucket-image-out" (recResizedKey recOk)
         (recBase recOk) recOk.bucketName
         (dimStr (thumbnailDims om0.width om0.height).1 (thumbnailDims om0.width om0.height).2)
         envOk.processingTime1,
       .computeMetrics rm0.size_bytes om0.size_bytes,
       .dynamoPut (auditItemOf recOk envOk om0 rm0),
       .logSuccess (recKey recOk) om0.size_bytes rm0.size_bytes] ++
      cleanupEvents envOk (recDownloadPath recOk envOk) (recUploadPath recOk) ∧
    (auditItemOf recOk envOk om0 rm0).reductionPercentage =
      reductionPercentage rm0.size_bytes om0.size_bytes :=
  pipeline_order_amended recOk envOk om0 rm0 rfl rfl rfl rfl rfl (by decide) rfl

/-- C7: a record that reaches the derived-metrics computation with an
original byte size of zero raises the division-by-zero error, the record
fails terminally, and no audit item is ever written for it. -/
theorem zero_bytes_terminal (rec : S3Record) (env : RecordEnv) (om rm : ImageMeta)
    (h1 : env.download = .ok ()) (h2 : env.origMeta = .ok om)
    (h3 : env.saveResized = .ok ()) (h4 : env.resizedMeta = .ok rm)
    (h5 : env.upload = .ok ()) (h6 : om.size_bytes = 0) :
    (processRecord rec env).2 = .error .divisionByZero ∧
    ∀ item : AuditItem, Event.dynamoPut item ∉ (processRecord rec env).1 := by
  unfold processRecord
  rw [h1, h2, h3, h4, h5]
  simp [computeReduction, h6]

/-- C7 witness: the statement at a concrete zero-byte record. -/
theorem zero_bytes_terminal_witness :
    (processRecord recOk envZeroSize).2 = .error .divisionByZero ∧
    ∀ item : AuditItem, Event.dynamoPut item ∉ (processRecord recOk envZeroSize).1 :=
  zero_bytes_terminal recOk envZeroSize omZero rm0 rfl rfl rfl rfl rfl rfl

/-- C8: on every path, the only storage-fetch call of a record carries the
URL-decoded object key (plus signs decoded to spaces, percent escapes
decoded), and any audit item written carries the same decoded key: the raw
key is never used in an external call. -/
theorem key_decoded_before_calls (rec : S3Record) (env : RecordEnv) :
    fetchKeys (processRecord rec env).1 = [recKey rec] ∧
    ∀ item : AuditItem, Event.dynamoPut item ∈ (processRecord rec env).1 →
      item.originalObjectKey = recKey rec := by
  obtain ⟨u1, u2, pt1, pt2, dl, omr, sv, rmr, up, put, rd, ru⟩ := env
  simp only [processRecord]
  cases dl with
  | error e => simp [fetchKeys]
  | ok u =>
    cases u
    cases omr with
    | error e => simp [fetchKeys]
    | ok om =>
      cases sv with
      | error e => simp [fetchKeys]
      | ok u =>
        cases u
        cases rmr with
        | error e => simp [fetchKeys]
        | ok rm =>
          cases up with
          | error e => simp [fetchKeys]
          | ok u =>
            cases u
            by_cases hsz : om.size_bytes = 0
            · simp [computeReduction, hsz, fetchKeys]
            · simp only [computeReduction, if_neg hsz]
              cases put with
              | error e => simp [fetchKeys, auditItemOf]
              | ok u =>
                cases u
                refine ⟨by simp [fetchKeys, fetchKeys_append, fetchKeys_cleanup], ?_⟩
                intro item hmem
                rw [List.mem_append] at hmem
                rcases hmem with hmem | hmem
                · simp [auditItemOf] at hmem
                  rw [hmem]
                · exact absurd hmem (dynamoPut_not_in_cleanup _ _ _ _)



/-- C8 witness: a key with a plus-encoded space is fetched decoded. -/
theorem key_decoded_before_calls_witness :
    fetchKeys (processRecord recOk envOk).1 = [recKey recOk] ∧
    unquote_plus "pics/a+b.jpg" = "pics/a b.jpg" ∧
    (auditItemOf recOk envOk om0 rm0).originalObjectKey = recKey recOk :=
  ⟨(key_decoded_before_calls recOk envOk).1, by decide,
   (key_decoded_before_calls recOk envOk).2 (auditItemOf recOk envOk om0 rm0) (by decide)⟩

/-- C9: when every record of the batch processes successfully the handler
returns status code 200 with the completion message and a processed count
equal to the number of records of the batch. -/
theorem full_success_response (batch : List (S3Record × RecordEnv))
    (h : ∀ p ∈ batch, isOkE (processRecord p.1 p.2).2 = true) :
    (lambda_handler batch).2 =
      .ok ⟨200, "Image processing completed successfully", batch.length⟩ := by
  have hr := runRecords_all_ok batch h
  unfold lambda_handler
  rw [hr]

/-- C9 witness: a two-record all-success batch returns 200 and count 2. -/
theorem full_success_response_witness :
    (lambda_handler [(recOk, envOk), (recB, envOk2)]).2 =
      .ok ⟨200, "Image processing completed successfully", 2⟩ :=
  full_success_response [(recOk, envOk), (recB, envOk2)] (by decide)

/-- C10: a record whose notification lacks the optional size field is
processed normally; its audit item records the sentinel -1 as
`OriginalSize` while the actual byte count of the downloaded file is
recorded as `OriginalFileSize`. -/
theorem missing_size_sentinel (rec : S3Record) (env : RecordEnv) (om rm : ImageMeta)
    (h0 : rec.objectSize = none)
    (h1 : env.download = .ok ()) (h2 : env.origMeta = .ok om)
    (h3 : env.saveResized = .ok ()) (h4 : env.resizedMeta = .ok rm)
    (h5 : env.upload = .ok ()) (h6 : om.size_bytes ≠ 0)
    (h7 : env.putItem = .ok ()) :
    (processRecord rec env).2 = .ok (auditItemOf rec env om rm) ∧
    (auditItemOf rec env om rm).originalSize = -1 ∧
    (auditItemOf rec env om rm).originalFileSize = om.size_bytes := by
  refine ⟨?_, ?_, rfl⟩
  · rw [processRecord_success rec env om rm h1 h2 h3 h4 h5 h6 h7]
  · simp [auditItemOf, h0]

/-- C10 witness: the statement at a record without a size hint. -/
theorem missing_size_sentinel_witness :
    (processRecord recNoSize envOk).2 = .ok (auditItemOf recNoSize envOk om0 rm0) ∧
    (auditItemOf recNoSize envOk om0 rm0).originalSize = -1 ∧
    (auditItemOf recNoSize envOk om0 rm0).originalFileSize = om0.size_bytes :=
  missing_size_sentinel recNoSize envOk om0 rm0 rfl rfl rfl rfl rfl rfl (by decide) rfl

end ImgProc
